import Mathlib

/-!
Shallow embedding of the process-supervision core of FAI-PEP:
`benchmarking/utils/subprocess_with_logger.py` (the retry loop `processRun`,
the single-attempt supervisor `_processRun`, the wait path `processWait`,
the output streamer `_getOutput`, the log filter `_filterOutput` and the
timeout handler `_kill`) and `benchmarking/utils/watchdog.py`.

Python integers become `Nat`/`Int`, keyed registry maps become functions
`String → _`, and the two asynchronous inputs (the externally writable
kill-request flag and the lines the child produces) become explicit
oracle parameters.  Logging is modelled only where a claim depends on the
branch taken (an event list); pure resource actions (closing pipes,
killing the process group, cancelling the timer) have no state effect in
the model and are noted in the doc comments of the functions that
perform them.
-/

set_option autoImplicit false

namespace FaiPep

/-- Modelled from the spec: the run registry of `benchmarking/utils/utilities.py`
(not among the sources at hand) keeps, per run key, a status code
(0 success, 1 failure) and a timed-out flag, plus a global kill-request
flag that any thread may set. -/
structure RegState where
  status : String → Nat
  timedOut : String → Bool
  killRequested : Bool

/-- Modelled from the spec: `setRunStatus(status, overwrite=False, key)`.
With `overwrite` the status slot of `key` is replaced outright; without it
a failure already recorded for `key` stays recorded (the reset site in
`processRun` comments that it must overwrite the error of a prior run,
so the plain write may not clear one). -/
def setRunStatus (v : Nat) (overwrite : Bool) (key : String) (s : RegState) : RegState :=
  { s with
    status := fun k =>
      if k = key then (if overwrite then v else Nat.max (s.status k) v) else s.status k }

/-- Modelled from the spec: `getRunStatus(key)` reads the status slot of `key`. -/
def getRunStatus (key : String) (s : RegState) : Nat := s.status key

/-- Modelled from the spec: the registry keeps a timed-out flag per run key. -/
def setRunTimeoutAt (key : String) (s : RegState) : RegState :=
  { s with timedOut := fun k => if k = key then true else s.timedOut k }

/-- `setRunTimeout()`: the Python accessor takes no key argument, so every
call site in `subprocess_with_logger.py` writes the slot of the default
key `""`, whatever run key the surrounding call is using. -/
def setRunTimeout (s : RegState) : RegState := setRunTimeoutAt "" s

/-- `getRunTimeout()`: likewise reads the slot of the default key `""`. -/
def getRunTimeout (s : RegState) : Bool := s.timedOut ""

/-- Modelled from the spec: the kill-request flag is global, so the key
accepted by `getRunKilled` selects nothing. -/
def getRunKilled (_key : String) (s : RegState) : Bool := s.killRequested

/-- `_kill`, the Timer callback: sends SIGKILL to the process group (a
resource action outside the state model), logs, records failure for the
process key and sets the timed-out flag, which the Python helper writes
without passing the key it received. -/
def _kill (processKey : String) (s : RegState) : RegState :=
  setRunTimeout (setRunStatus 1 false processKey s)

/-! ### `_filterOutput` and its substring test -/

/-- Bool-valued prefix test on character lists. -/
def isPrefixChars : List Char → List Char → Bool
  | [], _ => true
  | _ :: _, [] => false
  | a :: as, b :: bs => a == b && isPrefixChars as bs

/-- Bool-valued infix test on character lists, the meaning of the Python
containment test `match in line`. -/
def isInfixChars (n : List Char) : List Char → Bool
  | [] => isPrefixChars n []
  | c :: t => isPrefixChars n (c :: t) || isInfixChars n t

/-- `match in line` for strings. -/
def containsSub (m line : String) : Bool := isInfixChars m.data line.data

/-- The inner loop of `_filterOutput`: does the line contain one of the
filter strings (with the inner `break` on the first hit). -/
def lineMatchesAny (match_list : List String) (line : String) : Bool :=
  match_list.any (fun m => containsSub m line)

/-- `_filterOutput(output, match_list)`: iterates over a reversed copy of
`output` and deletes the entry at the original position `length - i - 1`
whenever the line contains one of the filter strings.  The deleted
positions are strictly decreasing, so no deletion shifts a position that
is still to be visited: the net effect is a right-to-left traversal that
drops every matching line, which `foldr` expresses directly. -/
def _filterOutput (output : List String) (match_list : List String) : List String :=
  output.foldr (fun line acc => if lineMatchesAny match_list line then acc else line :: acc) []

/-! ### The retry loop `processRun` -/

/-- The log lines `processRun` emits that a claim depends on. -/
inductive RunEvent where
  | succeeded
  | failedTimeout
  | willRetry (remaining : Nat)
  deriving Repr, DecidableEq

/-- What one call of `processRun` produces: the value of the local `ret`
(`none` when the loop body never ran), the final registry state, how many
times `_processRun` was invoked, and the branch log. -/
structure RunOutcome where
  ret : Option (List String × Option String)
  state : RegState
  attempts : Nat
  events : List RunEvent

/-- The `while retryCount > 0` loop of `processRun`.  The single-attempt
supervisor `_processRun` is a parameter `attempt` (indexed by how many
attempts already ran) so that the loop can be studied for an arbitrary
command; `rc` is the remaining retry count, `i` the attempts already made
and `ret0` the current value of the Python local `ret`.  Each iteration
resets the status of the run key (overwriting), runs the attempt, breaks
on success (logging unless `silent`), breaks when `getRunTimeout()` reads
true (logging the failure), and otherwise decrements and logs the retry.
The optional `retry_sleep` only spends time and is not modelled. -/
def processRunLoop (attempt : Nat → RegState → (List String × Option String) × RegState)
    (key : String) (silent : Bool) :
    Nat → Nat → RegState → Option (List String × Option String) → RunOutcome
  | 0, i, s, ret0 => ⟨ret0, s, i, []⟩
  | Nat.succ rc, i, s, _ =>
    let s1 := setRunStatus 0 true key s
    let r := attempt i s1
    if getRunStatus key r.2 = 0 then
      ⟨some r.1, r.2, i + 1, if silent then [] else [RunEvent.succeeded]⟩
    else if getRunTimeout r.2 then
      ⟨some r.1, r.2, i + 1, [RunEvent.failedTimeout]⟩
    else
      let rest := processRunLoop attempt key silent rc (i + 1) r.2 (some r.1)
      ⟨rest.ret, rest.state, rest.attempts, RunEvent.willRetry rc :: rest.events⟩

/-- `processRun(*args, **kwargs)`: normalises the process key and runs the
retry loop with `retryCount = kwargs.get("retry", 3)` (the default is 3). -/
def processRun (attempt : Nat → RegState → (List String × Option String) × RegState)
    (key : String) (silent : Bool) (retry : Nat) (s : RegState) : RunOutcome :=
  processRunLoop attempt key silent retry 0 s none

/-- The registry state after `n` consecutive failed loop iterations
starting at attempt index `i`: each iteration resets the status of `key`
and then runs the attempt. -/
def failIter (attempt : Nat → RegState → (List String × Option String) × RegState)
    (key : String) : Nat → Nat → RegState → RegState
  | _, 0, s => s
  | i, Nat.succ n, s => failIter attempt key (i + 1) n (attempt i (setRunStatus 0 true key s)).2

/-- A convenient all-clear initial registry state. -/
def regInit : RegState := ⟨fun _ => 0, fun _ => false, false⟩

/-! ### The output streamer `_getOutput` and the wait path `processWait` -/

/-- Python `line.rstrip()`: drop trailing whitespace. -/
def rstrip (s : String) : String :=
  String.mk ((s.data.reverse.dropWhile Char.isWhitespace).reverse)

/-- Does some pattern match the (already right-trimmed) line?  A pattern
is modelled as a Boolean line-matcher, the abstraction the spec uses for
`pattern.match(nline)`; the inner `for`/`break` over the pattern list is
`List.any`. -/
def anyPattern (patterns : List (String → Bool)) (nline : String) : Bool :=
  patterns.any (fun p => p nline)

/-- The read loop of `_getOutput`.  `killRead n` is the value of the
externally written kill-request flag as observed by the `getRunKilled`
check of iteration `n` (an oracle, because any thread may set the flag at
any time); `rem` is what the child will still produce.  Iterations whose
`poll` returns nothing only re-check the flag and are collapsed into the
oracle.  Each produced line is right-trimmed and appended before the
patterns are tested; on a first match the loop stops with the match flag
set.  The `decode` fallback is the identity on strings.  An empty read
(child closed its stream) breaks with whatever was read, which is also
what the kill check yields then, so the flag check is elided for `[]`. -/
def getOutputGo (killRead : Nat → Bool) (patterns : List (String → Bool)) :
    List String → Nat → List String × Bool
  | [], _ => ([], false)
  | l :: rest, n =>
    if killRead n then ([], false)
    else
      if anyPattern patterns (rstrip l) then ([rstrip l], true)
      else
        ((rstrip l) :: (getOutputGo killRead patterns rest (n + 1)).1,
          (getOutputGo killRead patterns rest (n + 1)).2)

/-- `_getOutput(ps, patterns)`: stream the lines the child produces,
returning the accumulated lines and whether a pattern matched. -/
def _getOutput (killRead : Nat → Bool) (script : List String)
    (patterns : List (String → Bool)) : List String × Bool :=
  getOutputGo killRead patterns script 0

/-- The part of the environment of one `processWait` call that the real
world supplies: the lines the child will produce, its natural exit
status, the kill-flag oracle for the read loop, the kill-flag value the
wait loop and its following re-check observe (the flag is never cleared
by this code, so one value covers both), and an exception injected into
the `try` body (`none` when the body runs normally; the model places the
raise at the head of the body, before any registry write). -/
structure WaitEnv where
  script : List String
  exitCode : Int
  killRead : Nat → Bool
  killWait : Bool
  exc : Option String

/-- The keyword arguments `processWait` reads. -/
structure WaitArgs where
  process_key : String
  log_output : Bool
  ignore_status : Bool
  patterns : List (String → Bool)
  filterArg : Option (List String)

/-- `if "filter" in kwargs: output = _filterOutput(output, kwargs["filter"])`. -/
def applyFilterOpt (filterArg : Option (List String)) (output : List String) : List String :=
  match filterArg with
  | some fl => _filterOutput output fl
  | none => output

/-- `processWait((ps, t), **kwargs)`.  The body streams the output, then
fixes the exit status: 0 on a pattern match (the process is terminated,
an intentional early stop), 0 when the kill flag is observed by the
bounded-slice wait loop or the re-check after it (the process is
terminated at user request), and the natural exit code otherwise — the
model assumes the child terminates when neither flag nor match stops it.
A nonzero status is recorded as a failure for the key; the output is
passed through the filter when `log_output` is set or the status is
nonzero (both log branches reassign `output`).  On status 0 or
`ignore_status` the call records success and returns the output with no
error, else it records failure and returns no lines and the joined
output as the error.  An exception in the body is caught and stringified
with no registry write.  Closing the pipe, terminating the process and
cancelling the timer are resource actions with no state effect. -/
def processWait (env : WaitEnv) (a : WaitArgs) (s : RegState) :
    (List String × Option String) × RegState :=
  match env.exc with
  | some e => (([], some e), s)
  | none =>
    let om := _getOutput env.killRead env.script a.patterns
    let status : Int := if om.2 then 0 else if env.killWait then 0 else env.exitCode
    let s1 := if status = 0 then s else setRunStatus 1 false a.process_key s
    let output := if a.log_output = true ∨ status ≠ 0 then applyFilterOpt a.filterArg om.1 else om.1
    if status = 0 ∨ a.ignore_status = true then
      ((output, none), setRunStatus 0 false a.process_key s1)
    else
      (([], some (String.intercalate "\n" output)), setRunStatus 1 false a.process_key s1)

/-- `_processRun(*args, **kwargs)`: one supervised attempt.  With
`non_blocking` it spawns and returns immediately.  A spawn failure
(`subprocess.CalledProcessError` or any other exception, already
stringified in `spawnExc`) is caught, logged, recorded as a failure for
the key and returned as the error with no lines.  Otherwise the spawned
process is waited on; arming the timeout Timer is an asynchronous action
whose registry effect (`_kill`) belongs to the environment, and the
`async` branch, which returns the raw process handle instead of lines,
is outside the claims and not modelled. -/
def _processRun (non_blocking : Bool) (spawnExc : Option String)
    (env : WaitEnv) (a : WaitArgs) (s : RegState) :
    (List String × Option String) × RegState :=
  if non_blocking then (([], none), s)
  else
    match spawnExc with
    | some e => (([], some e), setRunStatus 1 false a.process_key s)
    | none => processWait env a s

/-- The lines a run with no kill request produces up to and including the
first line whose right-trimmed form matches a pattern (all lines, when
none matches). -/
def takeToMatch (patterns : List (String → Bool)) : List String → List String
  | [] => []
  | l :: rest =>
    if anyPattern patterns (rstrip l) then [rstrip l]
    else (rstrip l) :: takeToMatch patterns rest

/-- Does some produced line match after right-trimming? -/
def scriptMatches (patterns : List (String → Bool)) (script : List String) : Bool :=
  script.any (fun l => anyPattern patterns (rstrip l))

/-! ### `WatchDog` (`benchmarking/utils/watchdog.py`) -/

/-- The poller loop `_runWatchdog`, counting how many times `action` is
invoked.  `condition n` is the value of the condition at poll cycle `n`;
`cycles` is how many times the loop head still observes `running = true`
before `main` completes and clears it.  While running, a true condition
invokes the action, and with `once` the loop breaks after the first
trigger; otherwise it keeps polling. -/
def _runWatchdog (condition : Nat → Bool) (once : Bool) : Nat → Nat → Nat
  | 0, _ => 0
  | Nat.succ r, n =>
    if condition n then
      (if once then 1 else 1 + _runWatchdog condition once r (n + 1))
    else _runWatchdog condition once r (n + 1)

/-- `WatchDog.start(*args)`: marks running, launches the poller, runs
`main` synchronously (its return value `mainRet`; `cycles` poll cycles
happen while it runs), clears running, joins the poller and returns the
value of `main`.  The result is that value paired with the number of
action invocations. -/
def watchDogStart {α : Type} (mainRet : α) (cycles : Nat)
    (condition : Nat → Bool) (once : Bool) : α × Nat :=
  (mainRet, _runWatchdog condition once cycles 0)

theorem getRunStatus_setRunStatus_self (v : Nat) (ow : Bool) (key : String) (s : RegState) :
    getRunStatus key (setRunStatus v ow key s) =
      (if ow then v else Nat.max (s.status key) v) := by
  simp [getRunStatus, setRunStatus]

theorem getRunStatus_setRunStatus_other (v : Nat) (ow : Bool) (key k : String) (s : RegState)
    (h : k ≠ key) : getRunStatus k (setRunStatus v ow key s) = getRunStatus k s := by
  simp [getRunStatus, setRunStatus, h]

theorem setRunStatus_timedOut (v : Nat) (ow : Bool) (key : String) (s : RegState) :
    (setRunStatus v ow key s).timedOut = s.timedOut := rfl

theorem setRunStatus_killRequested (v : Nat) (ow : Bool) (key : String) (s : RegState) :
    (setRunStatus v ow key s).killRequested = s.killRequested := rfl

theorem getRunTimeout_setRunStatus (v : Nat) (ow : Bool) (key : String) (s : RegState) :
    getRunTimeout (setRunStatus v ow key s) = getRunTimeout s := rfl

/-- Shared helper: whenever the attempt just run leaves `getRunTimeout()`
true, the loop stops with that attempt as its result — through the
success branch if the status is 0, through the timeout branch otherwise. -/
theorem processRunLoop_stops (attempt : Nat → RegState → (List String × Option String) × RegState)
    (key : String) (silent : Bool) (n i : Nat) (s : RegState)
    (ret0 : Option (List String × Option String))
    (ht : getRunTimeout (attempt i (setRunStatus 0 true key s)).2 = true) :
    (processRunLoop attempt key silent (n + 1) i s ret0).ret =
      some (attempt i (setRunStatus 0 true key s)).1 ∧
    (processRunLoop attempt key silent (n + 1) i s ret0).attempts = i + 1 := by
  by_cases h0 : getRunStatus key (attempt i (setRunStatus 0 true key s)).2 = 0
  · simp [processRunLoop, h0]
  · simp [processRunLoop, h0, ht]

/-- Unfolding lemma for the retry branch of the loop. -/
theorem processRunLoop_retry_step
    (attempt : Nat → RegState → (List String × Option String) × RegState)
    (key : String) (silent : Bool) (rc i : Nat) (s : RegState)
    (ret0 : Option (List String × Option String))
    (hne : getRunStatus key (attempt i (setRunStatus 0 true key s)).2 ≠ 0)
    (ht : getRunTimeout (attempt i (setRunStatus 0 true key s)).2 = false) :
    processRunLoop attempt key silent (rc + 1) i s ret0 =
      ⟨(processRunLoop attempt key silent rc (i + 1) (attempt i (setRunStatus 0 true key s)).2
          (some (attempt i (setRunStatus 0 true key s)).1)).ret,
        (processRunLoop attempt key silent rc (i + 1) (attempt i (setRunStatus 0 true key s)).2
          (some (attempt i (setRunStatus 0 true key s)).1)).state,
        (processRunLoop attempt key silent rc (i + 1) (attempt i (setRunStatus 0 true key s)).2
          (some (attempt i (setRunStatus 0 true key s)).1)).attempts,
        RunEvent.willRetry rc ::
          (processRunLoop attempt key silent rc (i + 1) (attempt i (setRunStatus 0 true key s)).2
            (some (attempt i (setRunStatus 0 true key s)).1)).events⟩ := by
  simp [processRunLoop, hne, ht]

/-- Shared helper: when every attempt ends with a failing status for the
run key and never touches the timed-out reading, the loop runs all of its
`n + 1` iterations and returns the final result of the last attempt. -/
theorem processRunLoop_exhausts
    (attempt : Nat → RegState → (List String × Option String) × RegState)
    (key : String) (silent : Bool)
    (hFail : ∀ j s, getRunStatus key (attempt j s).2 ≠ 0)
    (hNoTO : ∀ j s, getRunTimeout (attempt j s).2 = getRunTimeout s) :
    ∀ (n i : Nat) (s : RegState) (ret0 : Option (List String × Option String)),
      getRunTimeout s = false →
      (processRunLoop attempt key silent (n + 1) i s ret0).ret =
        some (attempt (i + n) (setRunStatus 0 true key (failIter attempt key i n s))).1 ∧
      (processRunLoop attempt key silent (n + 1) i s ret0).attempts = i + n + 1 := by
  intro n
  induction n with
  | zero =>
    intro i s ret0 hs
    have ht : getRunTimeout (attempt i (setRunStatus 0 true key s)).2 = false := by
      rw [hNoTO, getRunTimeout_setRunStatus, hs]
    rw [processRunLoop_retry_step attempt key silent 0 i s ret0
      (hFail i (setRunStatus 0 true key s)) ht]
    simp [processRunLoop, failIter]
  | succ n ih =>
    intro i s ret0 hs
    have ht : getRunTimeout (attempt i (setRunStatus 0 true key s)).2 = false := by
      rw [hNoTO, getRunTimeout_setRunStatus, hs]
    have hrec := ih (i + 1) (attempt i (setRunStatus 0 true key s)).2
      (some (attempt i (setRunStatus 0 true key s)).1) ht
    have hidx : i + 1 + n = i + (n + 1) := by omega
    rw [hidx] at hrec
    rw [processRunLoop_retry_step attempt key silent (n + 1) i s ret0
      (hFail i (setRunStatus 0 true key s)) ht]
    refine ⟨?_, ?_⟩
    · simpa [failIter] using hrec.1
    · have h2 := hrec.2
      simp only [failIter]
      simpa using h2

/-- Unfolding lemma for the success branch of the loop. -/
theorem processRunLoop_success_step
    (attempt : Nat → RegState → (List String × Option String) × RegState)
    (key : String) (silent : Bool) (rc i : Nat) (s : RegState)
    (ret0 : Option (List String × Option String))
    (h0 : getRunStatus key (attempt i (setRunStatus 0 true key s)).2 = 0) :
    processRunLoop attempt key silent (rc + 1) i s ret0 =
      ⟨some (attempt i (setRunStatus 0 true key s)).1,
        (attempt i (setRunStatus 0 true key s)).2, i + 1,
        if silent then [] else [RunEvent.succeeded]⟩ := by
  simp [processRunLoop, h0]

/-- Unfolding lemma for the timeout branch of the loop. -/
theorem processRunLoop_timeout_step
    (attempt : Nat → RegState → (List String × Option String) × RegState)
    (key : String) (silent : Bool) (rc i : Nat) (s : RegState)
    (ret0 : Option (List String × Option String))
    (h0 : getRunStatus key (attempt i (setRunStatus 0 true key s)).2 ≠ 0)
    (ht : getRunTimeout (attempt i (setRunStatus 0 true key s)).2 = true) :
    processRunLoop attempt key silent (rc + 1) i s ret0 =
      ⟨some (attempt i (setRunStatus 0 true key s)).1,
        (attempt i (setRunStatus 0 true key s)).2, i + 1,
        [RunEvent.failedTimeout]⟩ := by
  simp [processRunLoop, h0, ht]

/-- Shared helper: the loop itself writes the registry only through the
per-attempt status reset, so whenever the attempts leave the timed-out
slots and the kill-request flag alone, the loop does too. -/
theorem processRunLoop_preserves_flags
    (attempt : Nat → RegState → (List String × Option String) × RegState)
    (key : String) (silent : Bool)
    (hA : ∀ j s, ((attempt j s).2).timedOut = s.timedOut ∧
      ((attempt j s).2).killRequested = s.killRequested) :
    ∀ (rc i : Nat) (s : RegState) (ret0 : Option (List String × Option String)),
      (processRunLoop attempt key silent rc i s ret0).state.timedOut = s.timedOut ∧
      (processRunLoop attempt key silent rc i s ret0).state.killRequested = s.killRequested := by
  intro rc
  induction rc with
  | zero => intro i s ret0; exact ⟨rfl, rfl⟩
  | succ rc ih =>
    intro i s ret0
    have hA1 := hA i (setRunStatus 0 true key s)
    have hTO : ((attempt i (setRunStatus 0 true key s)).2).timedOut = s.timedOut :=
      hA1.1.trans (setRunStatus_timedOut 0 true key s)
    have hKR : ((attempt i (setRunStatus 0 true key s)).2).killRequested = s.killRequested :=
      hA1.2.trans (setRunStatus_killRequested 0 true key s)
    by_cases h0 : getRunStatus key (attempt i (setRunStatus 0 true key s)).2 = 0
    · rw [processRunLoop_success_step attempt key silent rc i s ret0 h0]
      exact ⟨hTO, hKR⟩
    · by_cases ht : getRunTimeout (attempt i (setRunStatus 0 true key s)).2 = true
      · rw [processRunLoop_timeout_step attempt key silent rc i s ret0 h0 ht]
        exact ⟨hTO, hKR⟩
      · rw [processRunLoop_retry_step attempt key silent rc i s ret0 h0
          (by revert ht; cases getRunTimeout (attempt i (setRunStatus 0 true key s)).2 <;> simp)]
        have hrec := ih (i + 1) (attempt i (setRunStatus 0 true key s)).2
          (some (attempt i (setRunStatus 0 true key s)).1)
        exact ⟨hrec.1.trans hTO, hrec.2.trans hKR⟩

/-- C1: for a retry count of `N = n + 1` (the default being 3) and a
command whose attempts always end with a failing run status for the key
while never changing the timed-out reading, `processRun` invokes the
single-attempt supervisor exactly `N` times and then returns the last
attempt's failing result. -/
theorem processRun_exhausts_all_retries
    (attempt : Nat → RegState → (List String × Option String) × RegState)
    (key : String) (silent : Bool) (n : Nat) (s : RegState)
    (hFail : ∀ j s, getRunStatus key (attempt j s).2 ≠ 0)
    (hNoTO : ∀ j s, getRunTimeout (attempt j s).2 = getRunTimeout s)
    (hs : getRunTimeout s = false) :
    (processRun attempt key silent (n + 1) s).attempts = n + 1 ∧
    (processRun attempt key silent (n + 1) s).ret =
      some (attempt n (setRunStatus 0 true key (failIter attempt key 0 n s))).1 := by
  have h := processRunLoop_exhausts attempt key silent hFail hNoTO n 0 s none hs
  exact ⟨by simpa using h.2, by simpa using h.1⟩

/-- C1 (witness): a command failing on each of its 3 attempts without a
timeout is tried exactly 3 times and the last failing result is
returned. -/
theorem processRun_exhausts_all_retries_witness :
    (processRun (fun _ s => (([], some "boom"), setRunStatus 1 false "" s))
      "" false 3 regInit).attempts = 3 ∧
    (processRun (fun _ s => (([], some "boom"), setRunStatus 1 false "" s))
      "" false 3 regInit).ret = some ([], some "boom") := by
  have h := processRun_exhausts_all_retries
    (fun _ s => (([], some "boom"), setRunStatus 1 false "" s)) "" false 2 regInit
    (fun j s => by simp [getRunStatus, setRunStatus])
    (fun j s => rfl) rfl
  exact ⟨h.1, h.2⟩

/-- C2: whenever `getRunTimeout()` reads true right after an attempt,
the loop performs no further attempts and returns that attempt's result
immediately, however many retries remain (`n` more would have been
allowed) and however many attempts (`i`) went before. -/
theorem processRun_timeout_stops_retries
    (attempt : Nat → RegState → (List String × Option String) × RegState)
    (key : String) (silent : Bool) (n i : Nat) (s : RegState)
    (ret0 : Option (List String × Option String))
    (ht : getRunTimeout (attempt i (setRunStatus 0 true key s)).2 = true) :
    (processRunLoop attempt key silent (n + 1) i s ret0).ret =
      some (attempt i (setRunStatus 0 true key s)).1 ∧
    (processRunLoop attempt key silent (n + 1) i s ret0).attempts = i + 1 :=
  processRunLoop_stops attempt key silent n i s ret0 ht

/-- C2 (witness): an attempt during which the timeout handler fired stops
a run that still had 5 retries left after a single attempt. -/
theorem processRun_timeout_stops_retries_witness :
    (processRunLoop (fun _ s => (([], some "t"), _kill "k" s)) "k" false 6 0 regInit none).ret =
      some ([], some "t") ∧
    (processRunLoop (fun _ s => (([], some "t"), _kill "k" s)) "k" false 6 0 regInit none).attempts = 1 := by
  have h := processRun_timeout_stops_retries
    (fun _ s => (([], some "t"), _kill "k" s)) "k" false 5 0 regInit none rfl
  exact ⟨h.1, h.2⟩

/-- C8: at the start of each attempt the loop resets only the status of
its own run key (overwriting a recorded failure); it writes neither the
timed-out slots nor the kill-request flag, so those keep their values
across all attempts of one call whenever the attempts themselves leave
them alone. -/
theorem processRun_resets_only_status
    (attempt : Nat → RegState → (List String × Option String) × RegState)
    (key : String) (silent : Bool) (rc i : Nat) (s : RegState)
    (ret0 : Option (List String × Option String))
    (hA : ∀ j s, ((attempt j s).2).timedOut = s.timedOut ∧
      ((attempt j s).2).killRequested = s.killRequested) :
    getRunStatus key (setRunStatus 0 true key s) = 0 ∧
    (∀ k, k ≠ key → getRunStatus k (setRunStatus 0 true key s) = getRunStatus k s) ∧
    (setRunStatus 0 true key s).timedOut = s.timedOut ∧
    (setRunStatus 0 true key s).killRequested = s.killRequested ∧
    (processRunLoop attempt key silent rc i s ret0).state.timedOut = s.timedOut ∧
    (processRunLoop attempt key silent rc i s ret0).state.killRequested = s.killRequested := by
  refine ⟨by simp [getRunStatus, setRunStatus], ?_, rfl, rfl, ?_, ?_⟩
  · intro k hk
    exact getRunStatus_setRunStatus_other 0 true key k s hk
  · exact (processRunLoop_preserves_flags attempt key silent hA rc i s ret0).1
  · exact (processRunLoop_preserves_flags attempt key silent hA rc i s ret0).2

/-- C8 (witness): under a failing attempt that only records its failure,
the reset clears the status of the run key, leaves the status of another
key alone, and the whole loop leaves the timed-out slots and the
kill-request flag of the initial state untouched. -/
theorem processRun_resets_only_status_witness :
    getRunStatus "k" (setRunStatus 0 true "k" regInit) = 0 ∧
    getRunStatus "other" (setRunStatus 0 true "k" regInit) = getRunStatus "other" regInit ∧
    (processRunLoop (fun _ s => (([], some "x"), setRunStatus 1 false "k" s))
      "k" false 2 0 regInit none).state.timedOut = regInit.timedOut ∧
    (processRunLoop (fun _ s => (([], some "x"), setRunStatus 1 false "k" s))
      "k" false 2 0 regInit none).state.killRequested = regInit.killRequested := by
  have h := processRun_resets_only_status
    (fun _ s => (([], some "x"), setRunStatus 1 false "k" s)) "k" false 2 0 regInit none
    (fun j s => ⟨rfl, rfl⟩)
  exact ⟨h.1, h.2.1 "other" (by decide), h.2.2.2.2.1, h.2.2.2.2.2⟩

/-- C7 (counterexample): a run under key `"k1"` whose attempt is killed by
the timeout handler poisons a later run under the distinct key `"k2"`:
although the second command merely fails (its attempts never touch the
timed-out state) and 3 retries were requested, the second run stops after
a single attempt, because `_kill` wrote and `processRun` reads the
timed-out flag without any key. -/
theorem timeout_leaks_across_keys :
    (processRun (fun _ s => (([], some "e"), setRunStatus 1 false "k2" s)) "k2" false 3
      ((processRun (fun _ s => (([], some "t"), _kill "k1" s)) "k1" false 3 regInit).state)).attempts
      = 1 ∧
    (processRun (fun _ s => (([], some "e"), setRunStatus 1 false "k2" s)) "k2" false 3
      ((processRun (fun _ s => (([], some "t"), _kill "k1" s)) "k1" false 3 regInit).state)).attempts
      ≠ 3 := by
  constructor
  · rfl
  · decide

/-- C7 (amended): the status slots of distinct run keys are independent —
neither a status write nor `_kill` under `k1` changes the status reading
of `k2` — but the timed-out flag is written by `_kill` and read by the
retry loop without any key, so once it is set, a later run under any
other key stops after its first attempt regardless of its remaining
retries. -/
theorem timeout_flag_global_status_keyed
    (k1 k2 key : String) (v : Nat) (ow : Bool) (s : RegState)
    (attempt : Nat → RegState → (List String × Option String) × RegState)
    (silent : Bool) (n i : Nat) (ret0 : Option (List String × Option String))
    (hk : k2 ≠ k1)
    (ht : getRunTimeout s = true)
    (hT : ∀ j s, getRunTimeout (attempt j s).2 = getRunTimeout s) :
    getRunStatus k2 (setRunStatus v ow k1 s) = getRunStatus k2 s ∧
    getRunStatus k2 (_kill k1 s) = getRunStatus k2 s ∧
    getRunTimeout (_kill k1 s) = true ∧
    (processRunLoop attempt key silent (n + 1) i s ret0).attempts = i + 1 := by
  refine ⟨getRunStatus_setRunStatus_other v ow k1 k2 s hk, ?_, ?_, ?_⟩
  · show getRunStatus k2 (setRunTimeout (setRunStatus 1 false k1 s)) = getRunStatus k2 s
    rw [show getRunStatus k2 (setRunTimeout (setRunStatus 1 false k1 s)) =
        getRunStatus k2 (setRunStatus 1 false k1 s) from rfl]
    exact getRunStatus_setRunStatus_other 1 false k1 k2 s hk
  · rfl
  · have ht1 : getRunTimeout (attempt i (setRunStatus 0 true key s)).2 = true := by
      rw [hT, getRunTimeout_setRunStatus, ht]
    exact (processRunLoop_stops attempt key silent n i s ret0 ht1).2

/-- C7 (amended, witness): with the timed-out flag already set, a failing
run under key `"k2"` with 2 retries remaining stops after one attempt,
while the status of `"k2"` is unharmed by writes under `"k1"`. -/
theorem timeout_flag_global_status_keyed_witness :
    getRunStatus "k2" (setRunStatus 1 false "k1" (setRunTimeout regInit)) =
      getRunStatus "k2" (setRunTimeout regInit) ∧
    getRunStatus "k2" (_kill "k1" (setRunTimeout regInit)) =
      getRunStatus "k2" (setRunTimeout regInit) ∧
    getRunTimeout (_kill "k1" (setRunTimeout regInit)) = true ∧
    (processRunLoop (fun _ s => (([], some "e"), setRunStatus 1 false "k2" s))
      "k2" false 3 0 (setRunTimeout regInit) none).attempts = 1 := by
  have h := timeout_flag_global_status_keyed "k1" "k2" "k2" 1 false (setRunTimeout regInit)
    (fun _ s => (([], some "e"), setRunStatus 1 false "k2" s)) false 2 0 none
    (by decide) rfl (fun j s => rfl)
  exact ⟨h.1, h.2.1, h.2.2.1, h.2.2.2⟩

end FaiPep

namespace FaiPep

/-- C3 (counterexample): on `["DEBUG a", "keep", "DEBUG b"]` with filter
`["DEBUG"]`, `_filterOutput` also deletes the early line `"DEBUG a"` even
though the non-matching `"keep"` follows it; the claim predicts the
result `["DEBUG a", "keep"]`, but the code yields `["keep"]`. -/
theorem filterOutput_not_only_trailing :
    _filterOutput ["DEBUG a", "keep", "DEBUG b"] ["DEBUG"] = ["keep"] ∧
    _filterOutput ["DEBUG a", "keep", "DEBUG b"] ["DEBUG"] ≠ ["DEBUG a", "keep"] := by
  constructor <;> decide

/-- C3 (amended): `_filterOutput` removes every line that contains one of
the filter substrings, wherever it occurs; it does not stop at the first
non-matching line scanned from the end, so no matching line survives. -/
theorem filterOutput_removes_every_matching_line
    (output match_list : List String) :
    _filterOutput output match_list =
      output.filter (fun line => !(lineMatchesAny match_list line)) ∧
    ∀ line ∈ _filterOutput output match_list, lineMatchesAny match_list line = false := by
  have h : _filterOutput output match_list =
      output.filter (fun line => !(lineMatchesAny match_list line)) := by
    induction output with
    | nil => rfl
    | cons l rest ih =>
      by_cases hl : lineMatchesAny match_list l
      · simp [_filterOutput, List.filter_cons, hl] at ih ⊢
        exact ih
      · simp [_filterOutput, List.filter_cons, hl] at ih ⊢
        exact ih
  refine ⟨h, ?_⟩
  intro line hline
  rw [h] at hline
  have := List.of_mem_filter hline
  simpa using this

/-- Shared helper: with the kill flag never observed, the read loop
returns the right-trimmed lines through the first matching one and the
match flag says whether some line matched. -/
theorem getOutputGo_no_kill (killRead : Nat → Bool) (patterns : List (String → Bool))
    (hk : ∀ m, killRead m = false) :
    ∀ (script : List String) (n : Nat),
      getOutputGo killRead patterns script n =
        (takeToMatch patterns script, scriptMatches patterns script) := by
  intro script
  induction script with
  | nil => intro n; rfl
  | cons l rest ih =>
    intro n
    by_cases hm : anyPattern patterns (rstrip l) = true
    · simp [getOutputGo, hk n, hm, takeToMatch, scriptMatches]
    · simp [getOutputGo, hk n, hm, takeToMatch, scriptMatches, ih (n + 1)]

/-- Shared helper: when the kill flag is observed at read iteration `j`,
the read loop appends at most the `j - n` lines of iterations before it. -/
theorem getOutputGo_kill_length (killRead : Nat → Bool) (patterns : List (String → Bool)) :
    ∀ (script : List String) (n j : Nat), n ≤ j → killRead j = true →
      ((getOutputGo killRead patterns script n).1).length ≤ j - n := by
  intro script
  induction script with
  | nil => intro n j hnj hj; simp [getOutputGo]
  | cons l rest ih =>
    intro n j hnj hj
    by_cases hkn : killRead n = true
    · simp [getOutputGo, hkn]
    · have hne : n ≠ j := fun h => hkn (h ▸ hj)
      by_cases hm : anyPattern patterns (rstrip l) = true
      · simp [getOutputGo, hkn, hm]
        omega
      · have hrec := ih (n + 1) j (by omega) hj
        simp [getOutputGo, hkn, hm]
        omega

/-- C4 (counterexample): the matching line `"DEBUG x"` is produced and
matched, yet with `log_output` set and filter `["DEBUG"]` the call
returns no lines at all — not the lines up to and including the match —
because the log branch reassigns the filtered output before returning. -/
theorem patternMatch_lines_not_exact :
    (processWait ⟨["DEBUG x"], 0, fun _ => false, false, none⟩
      ⟨"", true, false, [fun l => l == "DEBUG x"], some ["DEBUG"]⟩ regInit).1 = ([], none) ∧
    _getOutput (fun _ => false) ["DEBUG x"] [fun l => l == "DEBUG x"] = (["DEBUG x"], true) ∧
    ([] : List String) ≠ ["DEBUG x"] := by
  refine ⟨?_, ?_, by decide⟩ <;> rfl

/-- C4 (amended): on a run whose lines include a pattern match and with
no kill request, the streamer appends each right-trimmed line before
testing it and stops at the first match, and the wait path returns
success with exactly the lines produced up to and including the matching
line — except that when `log_output` is set the configured filter is
applied to the returned lines as well. -/
theorem processWait_pattern_match (env : WaitEnv) (a : WaitArgs) (s : RegState)
    (hexc : env.exc = none) (hk : ∀ m, env.killRead m = false)
    (hm : scriptMatches a.patterns env.script = true) :
    _getOutput env.killRead env.script a.patterns = (takeToMatch a.patterns env.script, true) ∧
    (processWait env a (setRunStatus 0 true a.process_key s)).1 =
      (if a.log_output then applyFilterOpt a.filterArg (takeToMatch a.patterns env.script)
        else takeToMatch a.patterns env.script, none) ∧
    getRunStatus a.process_key (processWait env a (setRunStatus 0 true a.process_key s)).2 = 0 := by
  have hout : _getOutput env.killRead env.script a.patterns =
      (takeToMatch a.patterns env.script, true) := by
    rw [_getOutput, getOutputGo_no_kill env.killRead a.patterns hk env.script 0, hm]
  refine ⟨hout, ?_, ?_⟩
  · by_cases hlo : a.log_output = true
    · simp [processWait, hexc, hout, hlo]
    · simp [processWait, hexc, hout, hlo]
  · by_cases hlo : a.log_output = true
    · simp [processWait, hexc, hout, hlo, getRunStatus, setRunStatus]
    · simp [processWait, hexc, hout, hlo, getRunStatus, setRunStatus]

/-- C4 (amended, witness): with pattern matching the second line, no
kill, no `log_output` and no filter, the streamer trims and keeps the
first two lines and the wait path returns them with no error and a
success status. -/
theorem processWait_pattern_match_witness :
    _getOutput (fun _ => false) ["a ", "b MATCH", "c"] [fun l => l == "b MATCH"] =
      (["a", "b MATCH"], true) ∧
    (processWait ⟨["a ", "b MATCH", "c"], 0, fun _ => false, false, none⟩
      ⟨"", false, false, [fun l => l == "b MATCH"], none⟩
      (setRunStatus 0 true "" regInit)).1 = (["a", "b MATCH"], none) ∧
    getRunStatus "" (processWait ⟨["a ", "b MATCH", "c"], 0, fun _ => false, false, none⟩
      ⟨"", false, false, [fun l => l == "b MATCH"], none⟩
      (setRunStatus 0 true "" regInit)).2 = 0 := by
  have h := processWait_pattern_match ⟨["a ", "b MATCH", "c"], 0, fun _ => false, false, none⟩
    ⟨"", false, false, [fun l => l == "b MATCH"], none⟩ regInit rfl (fun m => rfl) (by decide)
  exact ⟨h.1, h.2.1, h.2.2⟩

/-- C5 (counterexample): a run killed at user request returns success,
but with `log_output` set and filter `["DEBUG"]` the returned lines are
not the lines captured so far: the captured `"DEBUG x"` is filtered away
before the return. -/
theorem kill_lines_not_captured :
    (processWait ⟨["DEBUG x", "y"], 7, fun n => decide (1 ≤ n), true, none⟩
      ⟨"", true, false, [], some ["DEBUG"]⟩ regInit).1 = ([], none) ∧
    (_getOutput (fun n => decide (1 ≤ n)) ["DEBUG x", "y"] []).1 = ["DEBUG x"] ∧
    ([] : List String) ≠ ["DEBUG x"] := by
  refine ⟨?_, ?_, by decide⟩ <;> rfl

/-- C5 (amended): when the kill-request flag has become true (and stays
true, as nothing in this code resets it), the wait path returns success:
no error, a success status for the run key, and the lines captured up to
the point the read loop observed the flag — except that when
`log_output` is set the configured filter is applied to the returned
lines as well. -/
theorem processWait_kill_returns_success (env : WaitEnv) (a : WaitArgs) (s : RegState)
    (hexc : env.exc = none) (hkw : env.killWait = true) :
    (processWait env a (setRunStatus 0 true a.process_key s)).1 =
      (if a.log_output then applyFilterOpt a.filterArg (_getOutput env.killRead env.script a.patterns).1
        else (_getOutput env.killRead env.script a.patterns).1, none) ∧
    getRunStatus a.process_key (processWait env a (setRunStatus 0 true a.process_key s)).2 = 0 ∧
    ∀ j, env.killRead j = true →
      ((_getOutput env.killRead env.script a.patterns).1).length ≤ j := by
  refine ⟨?_, ?_, ?_⟩
  · by_cases hm2 : (_getOutput env.killRead env.script a.patterns).2 = true
    · by_cases hlo : a.log_output = true
      · simp [processWait, hexc, hkw, hm2, hlo]
      · simp [processWait, hexc, hkw, hm2, hlo]
    · by_cases hlo : a.log_output = true
      · simp [processWait, hexc, hkw, hm2, hlo]
      · simp [processWait, hexc, hkw, hm2, hlo]
  · by_cases hm2 : (_getOutput env.killRead env.script a.patterns).2 = true
    · simp [processWait, hexc, hkw, hm2, getRunStatus, setRunStatus]
    · simp [processWait, hexc, hkw, hm2, getRunStatus, setRunStatus]
  · intro j hj
    simpa using getOutputGo_kill_length env.killRead a.patterns env.script 0 j (Nat.zero_le j) hj

/-- C5 (amended, witness): the kill flag observed at read iteration 1
stops the capture after the first line, and with no `log_output` the
call returns exactly that line with no error and records success. -/
theorem processWait_kill_returns_success_witness :
    (processWait ⟨["a", "b"], 5, fun n => decide (1 ≤ n), true, none⟩
      ⟨"", false, false, [], none⟩ (setRunStatus 0 true "" regInit)).1 = (["a"], none) ∧
    getRunStatus "" (processWait ⟨["a", "b"], 5, fun n => decide (1 ≤ n), true, none⟩
      ⟨"", false, false, [], none⟩ (setRunStatus 0 true "" regInit)).2 = 0 ∧
    ((_getOutput (fun n => decide (1 ≤ n)) ["a", "b"] []).1).length ≤ 1 := by
  have h := processWait_kill_returns_success ⟨["a", "b"], 5, fun n => decide (1 ≤ n), true, none⟩
    ⟨"", false, false, [], none⟩ regInit rfl rfl
  exact ⟨h.1, h.2.1, h.2.2 1 rfl⟩

/-- C6: neither a spawn failure nor an exception inside the wait path
escapes a supervised attempt: the stringified exception comes back as the
error of an empty result (with the spawn failure also recorded as a
failing status), so the attempt always produces a `(lines, error)`
pair. -/
theorem attempt_catches_exceptions (script : List String) (code : Int) (kr : Nat → Bool)
    (kw : Bool) (env : WaitEnv) (a : WaitArgs) (s : RegState) (e : String) :
    _processRun false (some e) env a s = (([], some e), setRunStatus 1 false a.process_key s) ∧
    processWait ⟨script, code, kr, kw, some e⟩ a s = (([], some e), s) :=
  ⟨rfl, rfl⟩

/-- C10: an exception inside `processWait` is caught without any status
write, so the attempt leaves the status reset by `processRun` at 0: the
call is classified a success, logged as one, never retried, and the
failing `([], errorString)` pair is returned as the overall result. -/
theorem waitException_attempt_counted_success (script : List String) (code : Int)
    (kr : Nat → Bool) (kw : Bool) (e : String) (a : WaitArgs) (n : Nat) (s0 : RegState) :
    processRun (fun _ s => _processRun false none ⟨script, code, kr, kw, some e⟩ a s)
      a.process_key false (n + 1) s0 =
      ⟨some ([], some e), setRunStatus 0 true a.process_key s0, 1, [RunEvent.succeeded]⟩ ∧
    getRunStatus a.process_key (setRunStatus 0 true a.process_key s0) = 0 := by
  have h0 : getRunStatus a.process_key
      ((fun (_ : Nat) s => _processRun false none ⟨script, code, kr, kw, some e⟩ a s) 0
        (setRunStatus 0 true a.process_key s0)).2 = 0 := by
    simp [_processRun, processWait, getRunStatus, setRunStatus]
  constructor
  · rw [processRun, processRunLoop_success_step _ _ _ n 0 s0 none h0]
    rfl
  · simp [getRunStatus, setRunStatus]

/-- Shared helper: with `once`, the first poll cycle at which the
condition is true invokes the action and breaks the poller. -/
theorem runWatchdog_first_trigger (condition : Nat → Bool) :
    ∀ (r n : Nat), (∃ k, n ≤ k ∧ k < n + r ∧ condition k = true) →
      _runWatchdog condition true r n = 1 := by
  intro r
  induction r with
  | zero =>
    rintro n ⟨k, hk1, hk2, _⟩
    omega
  | succ r ih =>
    rintro n ⟨k, hk1, hk2, hk3⟩
    by_cases hc : condition n = true
    · simp [_runWatchdog, hc]
    · have hne : n ≠ k := fun h => hc (h ▸ hk3)
      have hrec := ih (n + 1) ⟨k, by omega, by omega, hk3⟩
      simp [_runWatchdog, hc, hrec]

/-- Shared helper: while the condition stays false, the poller never
invokes the action. -/
theorem runWatchdog_no_trigger (condition : Nat → Bool) (once : Bool) :
    ∀ (r n : Nat), (∀ k, n ≤ k → k < n + r → condition k = false) →
      _runWatchdog condition once r n = 0 := by
  intro r
  induction r with
  | zero => intro n h; rfl
  | succ r ih =>
    intro n h
    have hc : condition n = false := h n (Nat.le_refl n) (by omega)
    simp [_runWatchdog, hc]
    exact ih (n + 1) (fun k hk1 hk2 => h k (by omega) (by omega))

/-- C9: a `WatchDog` built with `once = true` invokes the action exactly
once when the condition becomes true at some poll cycle during the run
of `main` — even if `main` keeps running for more cycles — and zero
times when it never does, and `start` returns the value of `main`. -/
theorem watchDog_once_fires_once {α : Type} (mainRet : α) (M : Nat) (condition : Nat → Bool) :
    (watchDogStart mainRet M condition true).1 = mainRet ∧
    ((∃ k, k < M ∧ condition k = true) → (watchDogStart mainRet M condition true).2 = 1) ∧
    ((∀ k, k < M → condition k = false) → (watchDogStart mainRet M condition true).2 = 0) := by
  refine ⟨rfl, ?_, ?_⟩
  · rintro ⟨k, hk, hck⟩
    exact runWatchdog_first_trigger condition M 0 ⟨k, Nat.zero_le k, by omega, hck⟩
  · intro h
    exact runWatchdog_no_trigger condition true M 0 (fun k hk1 hk2 => h k (by omega))

/-- C9 (witness): a condition that becomes true after 2 poll cycles
triggers the action exactly once although `main` runs for 10 cycles, and
the value of `main` is returned. -/
theorem watchDog_once_fires_once_witness :
    (watchDogStart (0 : Nat) 10 (fun n => decide (2 ≤ n)) true).1 = 0 ∧
    (watchDogStart (0 : Nat) 10 (fun n => decide (2 ≤ n)) true).2 = 1 := by
  have h := watchDog_once_fires_once (0 : Nat) 10 (fun n => decide (2 ≤ n))
  exact ⟨h.1, h.2.1 ⟨2, by decide, by decide⟩⟩

end FaiPep
